import Mathlib

/-!
Verification of the Suricata dashboard YAML configuration subsystem
(src/binary/config/core.py, src/binary/config/sections/*.py,
src/binary/config/yaml_manager.py).

The configuration document is a tree of YAML values as produced by
yaml.safe_load: null, booleans, integers, strings, sequences and mappings.
Python dictionaries are modelled as association lists that keep insertion
order; d[k] = v replaces the first matching entry in place and otherwise
appends, which is exactly the observable behaviour of an ordered Python
dict with unique keys (and the model stays well defined on lists with
duplicate keys).
-/

set_option maxHeartbeats 1000000

namespace SuricataConfig

/-- A YAML value, mirroring the Python values produced by yaml.safe_load:
None, bool, int, str, list, dict (floats do not occur in the claims). -/
inductive Yaml where
  | null : Yaml
  | bool (b : Bool) : Yaml
  | int (n : Int) : Yaml
  | str (s : String) : Yaml
  | seq (xs : List Yaml) : Yaml
  | map (m : List (String × Yaml)) : Yaml
  deriving Repr

/-- An ordered Python dict with string keys, as an association list. -/
abbrev AList := List (String × Yaml)

/-- Python truthiness bool(v): None, False, 0, empty string and empty
containers are falsy; everything else is truthy. -/
def pyTruthy : Yaml → Bool
  | .null => false
  | .bool b => b
  | .int n => n != 0
  | .str s => s != ""
  | .seq xs => !xs.isEmpty
  | .map m => !m.isEmpty

/-- First-some choice on options (Python-style short circuit). -/
def oElse (a b : Option Yaml) : Option Yaml :=
  match a with
  | some x => some x
  | none => b

/-- d.get(k) / d[k] read: the value at the first entry with key k. -/
def dlookup (k : String) : AList → Option Yaml
  | [] => none
  | (k', v) :: t => if k' = k then some v else dlookup k t

/-- d.get(k, default). Python returns the stored value (even None) when the
key is present and the default only when it is absent. -/
def getD (m : AList) (k : String) (d : Yaml) : Yaml :=
  (dlookup k m).getD d

/-- d[k] = v on an ordered Python dict: replace the first entry with key k
in place, otherwise append a new entry at the end. -/
def dictSet : AList → String → Yaml → AList
  | [], k, v => [(k, v)]
  | (k', v') :: t, k, v =>
    if k' = k then (k, v) :: t else (k', v') :: dictSet t k v

/-- d.update(s) / the merge half of a dict literal: apply d[k] = v for
every pair of s in order. -/
def dictUpdate (d : AList) (s : AList) : AList :=
  s.foldl (fun acc p => dictSet acc p.1 p.2) d

/-- The keys of a dict, in order. -/
def keysOf (d : AList) : List String := d.map Prod.fst

/-- Value of the last entry of s with key k, if any: the value Python
would hold for k after inserting the pairs of s in order. -/
def dlookupLast (k : String) : AList → Option Yaml
  | [] => none
  | (k', v) :: t => oElse (dlookupLast k t) (if k' = k then some v else none)

/-- src/binary/config/core.py _TRUE_VALUES. -/
def trueValues : List String := ["1", "true", "yes", "on"]

/-- src/binary/config/core.py _represent_bool: the scalar text the custom
SuricataDumper emits for a Python bool. -/
def represent_bool (b : Bool) : String := if b then "yes" else "no"

/-- Python str.strip() with no argument: remove leading and trailing
whitespace characters. -/
def pyStrip (s : String) : String :=
  ⟨((s.data.dropWhile Char.isWhitespace).reverse.dropWhile Char.isWhitespace).reverse⟩

/-- Python str.lower() (ASCII case folding, which covers every string the
source compares). -/
def pyLower (s : String) : String := ⟨s.data.map Char.toLower⟩

/-- src/binary/config/core.py to_bool: strings are stripped, lowercased and
compared against _TRUE_VALUES; every other value goes through bool(value). -/
def to_bool : Yaml → Bool
  | .str s => trueValues.contains (pyLower (pyStrip s))
  | v => pyTruthy v

/-- Whether a value is a Python dict (isinstance(v, dict)). -/
def Yaml.isMapV : Yaml → Bool
  | .map _ => true
  | _ => false

/-- Whether a value is a Python str (isinstance(v, str)). -/
def Yaml.isStrV : Yaml → Bool
  | .str _ => true
  | _ => false

/-- Error kinds observable at the config layer. configNotFound models the
FileNotFoundError raised by ConfigFile.load; the other kinds stand for the
TypeError/AttributeError/KeyError a CPython operation on a wrongly shaped
value raises (the precise CPython exception class does not matter to any
claim, only that it is not the config-not-found error). -/
inductive Err where
  | configNotFound : Err
  | typeError : Err
  | attributeError : Err
  | keyError : Err
  deriving Repr, DecidableEq

/-- src/binary/config/core.py ConfigFile.load over a model of the
filesystem: none means the path does not exist (FileNotFoundError), some y
is the parsed YAML document; a falsy parse result is replaced by an empty
mapping (yaml.safe_load(handle) or { }). -/
def loadE (fs : Option Yaml) : Except Err Yaml :=
  match fs with
  | none => .error .configNotFound
  | some y => .ok (if pyTruthy y then y else .map [])

/-- Treat a value as a dict, as CPython does when a dict method or dict
assignment is applied to it: a non-mapping raises. -/
def asDictE (y : Yaml) : Except Err AList :=
  match y with
  | .map m => .ok m
  | _ => .error .attributeError

/-- src/binary/config/core.py ConfigFile.save: serialization and the disk
write are modelled by the boolean outcome; the method returns that boolean
and never raises (its body is wrapped in try/except returning False). -/
def saveM (outcome : Bool) (d : AList) : Except Err Bool := .ok outcome

/-- The try/except Exception wrapper every mutation method uses: a raised
exception becomes the return value False. -/
def swallow (r : Except Err Bool) : Bool :=
  match r with
  | .ok b => b
  | .error _ => false

/-- Is a result the config-not-found error. -/
def isCNF {α : Type} : Except Err α → Bool
  | .error .configNotFound => true
  | _ => false

/-! ### Serialization token stream (core.py SuricataDumper)

yaml.dump walks the document tree and emits one scalar token per leaf plus
one token per mapping key; SuricataDumper overrides only the bool
representer (_represent_bool). dumpTokens models that walk, recording for
every emitted scalar which Python type produced it and the exact scalar
text the representer returned. -/

/-- The kind of node a serialized token came from. -/
inductive TokKind where
  | keyTok : TokKind
  | nullTok : TokKind
  | boolTok : TokKind
  | intTok : TokKind
  | strTok : TokKind
  deriving Repr, DecidableEq

/-- One scalar token of the serialized YAML text. -/
structure Token where
  kind : TokKind
  text : String
  deriving Repr, DecidableEq

mutual

/-- The scalar tokens yaml.dump with SuricataDumper emits for a value, in
document order; the bool case is exactly _represent_bool. -/
def dumpTokens : Yaml → List Token
  | .null => [⟨.nullTok, "null"⟩]
  | .bool b => [⟨.boolTok, represent_bool b⟩]
  | .int n => [⟨.intTok, toString n⟩]
  | .str s => [⟨.strTok, s⟩]
  | .seq xs => dumpTokensSeq xs
  | .map m => dumpTokensMap m

/-- Tokens of a sequence node. -/
def dumpTokensSeq : List Yaml → List Token
  | [] => []
  | x :: xs => dumpTokens x ++ dumpTokensSeq xs

/-- Tokens of a mapping node: each key scalar followed by its value. -/
def dumpTokensMap : List (String × Yaml) → List Token
  | [] => []
  | (k, v) :: t => ⟨.keyTok, k⟩ :: (dumpTokens v ++ dumpTokensMap t)

end

/-! ### AppLayerConfig (src/binary/config/sections/app_layer.py) -/

/-- AppLayerConfig.get_protocols on a loaded document: config.get
("app-layer", { }).get("protocols", { }); the inner .get raises when the
app-layer value is not a mapping. -/
def getProtocolsDoc (config : AList) : Except Err Yaml :=
  match getD config "app-layer" (.map []) with
  | .map al => .ok (getD al "protocols" (.map []))
  | _ => .error .attributeError

/-- AppLayerConfig.update_protocol on a loaded document: the setdefault
chain creates app-layer, protocols and the protocol entry as needed (a
present non-mapping value raises at the following attribute access or item
assignment), then enabled is set to to_bool(enabled) and settings is merged
on top. -/
def updateProtocolDoc (config : AList) (protocol : String) (enabled : Yaml)
    (settings : AList) : Except Err AList :=
  match getD config "app-layer" (.map []) with
  | .map al =>
    match getD al "protocols" (.map []) with
    | .map ps =>
      match getD ps protocol (.map []) with
      | .map pc =>
        .ok (dictSet config "app-layer" (.map (dictSet al "protocols" (.map
          (dictSet ps protocol (.map
            (dictUpdate pc (("enabled", .bool (to_bool enabled)) :: settings))))))))
      | _ => .error .typeError
    | _ => .error .attributeError
  | _ => .error .attributeError

/-- The on-disk effect of one update_protocol call: the saved document on
success, the untouched previous document when the mutation raised
internally and returned False without saving. -/
def applyProtocolUpdate (protocol : String) (enabled : Yaml) (settings : AList)
    (config : AList) : AList :=
  match updateProtocolDoc config protocol enabled settings with
  | .ok c' => c'
  | .error _ => config

/-! ### EngineConfig (src/binary/config/sections/engine.py) -/

/-- EngineConfig.get_stream: the stream mapping with a reassembly mapping
forced in, or an empty dict when the stream value is not a mapping. -/
def getStreamDoc (config : AList) : AList :=
  match getD config "stream" (.map []) with
  | .map sc =>
    match dlookup "reassembly" sc with
    | some (.map _) => sc
    | _ => dictSet sc "reassembly" (.map [])
  | _ => []

/-- The stream mapping the source reads before an update (existing_stream
in update_stream, with a non-mapping value dropped). -/
def existingStream (config : AList) : AList :=
  match getD config "stream" (.map []) with
  | .map m => m
  | _ => []

/-- The reassembly mapping inside the existing stream (existing_reassembly
in update_stream, with an absent or non-mapping value dropped). -/
def existingReassembly (config : AList) : AList :=
  match dlookup "reassembly" (existingStream config) with
  | some (.map r) => r
  | _ => []

/-- The intermediate updated_stream after the reassembly branch of
update_stream: when settings carries a reassembly mapping, the existing
reassembly is merged with it one level deep; otherwise the copied existing
stream is untouched. -/
def streamMergeU1 (config : AList) (settings : AList) : AList :=
  match dlookup "reassembly" settings with
  | some (.map rs) =>
    dictSet (existingStream config) "reassembly"
      (.map (dictUpdate (existingReassembly config) rs))
  | _ => existingStream config

/-- The final updated_stream of update_stream: every non-reassembly
settings key written on top of the intermediate stream. -/
def streamMergeResult (config : AList) (settings : AList) : AList :=
  dictUpdate (streamMergeU1 config settings)
    (settings.filter (fun p => p.1 != "reassembly"))

/-- EngineConfig.update_stream: two-level merge of settings into the stream
mapping (reassembly one level deeper), then the stream key is rewritten. -/
def updateStreamDoc (config : AList) (settings : AList) : AList :=
  dictSet config "stream" (.map (streamMergeResult config settings))

/-- EngineConfig.get_detection: a view assembled from five root keys, in
the fixed order the source checks them. -/
def getDetectionDoc (config : AList) : AList :=
  (match dlookup "detect" config with | some v => [("detect", v)] | none => [])
  ++ (match dlookup "threading" config with | some v => [("threading", v)] | none => [])
  ++ (match dlookup "profiling" config with | some v => [("profiling", v)] | none => [])
  ++ (match dlookup "mpm-algo" config with | some v => [("mpm-algo", v)] | none => [])
  ++ (match dlookup "sgh-mpm-context" config with | some v => [("sgh-mpm-context", v)] | none => [])

/-- EngineConfig.update_detection: every settings key written onto the
document root. -/
def updateDetectionDoc (config : AList) (settings : AList) : AList :=
  dictUpdate config settings

/-! ### SystemConfig (src/binary/config/sections/system.py) -/

/-- SystemConfig.get_vars: config.get("vars", { }). -/
def getVarsDoc (config : AList) : Yaml := getD config "vars" (.map [])

/-- SystemConfig.update_vars: wholesale replacement of the vars mapping
(variables or { } collapses to the same dict for an empty input). -/
def updateVarsDoc (config : AList) (vs : AList) : AList :=
  dictSet config "vars" (.map vs)

/-- SystemConfig.update_var: single-key write into vars, creating the
mapping when absent; a present non-mapping vars value raises at the item
assignment. -/
def updateVarDoc (config : AList) (name : String) (value : Yaml) : Except Err AList :=
  let c1 := if (dlookup "vars" config).isNone then dictSet config "vars" (.map []) else config
  match dlookup "vars" c1 with
  | some (.map vm) => .ok (dictSet c1 "vars" (.map (dictSet vm name value)))
  | _ => .error .typeError

/-- SystemConfig.get_outputs: flatten the outputs sequence of single-key
mappings into one dict; non-dict entries are skipped, a non-list outputs
value yields the empty dict. -/
def getOutputsDoc (config : AList) : AList :=
  match dlookup "outputs" config with
  | some (.seq xs) =>
    xs.foldl (fun acc y => match y with | .map m => dictUpdate acc m | _ => acc) []
  | _ => []

/-- Python membership output_name in output, applied to an arbitrary entry
of the outputs sequence: key test on a dict, substring test on a str,
element test on a list, TypeError otherwise. -/
def pyContains (y : Yaml) (name : String) : Except Err Bool :=
  match y with
  | .map m => .ok ((keysOf m).contains name)
  | .str s => .ok ((List.range (s.length + 1)).any
      (fun i => name.data.isPrefixOf (s.data.drop i)))
  | .seq xs => .ok (xs.any (fun x => match x with | .str s => s == name | _ => false))
  | _ => .error .typeError

/-- The rewrite of the entry update_output hits: a mapping value under the
name gets enabled set and the settings merged, a non-mapping value is
replaced by the bare boolean; a hit on a non-dict entry raises at the item
assignment, as the str/list item write does in CPython. -/
def outputHit (name : String) (flag : Bool) (settings : AList) (e : Yaml) :
    Except Err Yaml :=
  match e with
  | .map m =>
    match dlookup name m with
    | some (.map mv) =>
      .ok (.map (dictSet m name (.map
        (dictUpdate (dictSet mv "enabled" (.bool flag)) settings))))
    | some _ => .ok (.map (dictSet m name (.bool flag)))
    | none => .error .keyError
  | _ => .error .typeError

/-- The search loop of SystemConfig.update_output: returns the rewritten
sequence when some entry contains the key, none when no entry does (the
caller then appends). -/
def updateOutputsLoop (name : String) (flag : Bool) (settings : AList) :
    List Yaml → Except Err (Option (List Yaml))
  | [] => .ok none
  | e :: rest =>
    match pyContains e name with
    | .error err => .error err
    | .ok true =>
      match outputHit name flag settings e with
      | .ok e' => .ok (some (e' :: rest))
      | .error err => .error err
    | .ok false =>
      match updateOutputsLoop name flag settings rest with
      | .ok none => .ok none
      | .ok (some rest') => .ok (some (e :: rest'))
      | .error err => .error err

/-- SystemConfig.update_output on a loaded document: upsert into the
outputs sequence. Iterating or appending to a non-sequence outputs value
raises in CPython before any save, modelled by the final error branch. -/
def updateOutputDoc (config : AList) (name : String) (enabled : Yaml)
    (settings : AList) : Except Err AList :=
  let c1 := if (dlookup "outputs" config).isNone
    then dictSet config "outputs" (.seq []) else config
  match dlookup "outputs" c1 with
  | some (.seq outs) =>
    match updateOutputsLoop name (to_bool enabled) settings outs with
    | .ok (some outs') => .ok (dictSet c1 "outputs" (.seq outs'))
    | .ok none =>
      .ok (dictSet c1 "outputs" (.seq (outs ++
        [.map [(name, .map (dictUpdate [("enabled", .bool (to_bool enabled))] settings))]])))
    | .error err => .error err
  | _ => .error .typeError

/-- SystemConfig.get_logging: config.get("logging", { }). -/
def getLoggingDoc (config : AList) : Yaml := getD config "logging" (.map [])

/-- SystemConfig.update_logging: one-level merge into the logging mapping,
created when absent; .update on a present non-mapping value raises. -/
def updateLoggingDoc (config : AList) (settings : AList) : Except Err AList :=
  let c1 := if (dlookup "logging" config).isNone
    then dictSet config "logging" (.map []) else config
  match dlookup "logging" c1 with
  | some (.map lm) => .ok (dictSet c1 "logging" (.map (dictUpdate lm settings)))
  | _ => .error .attributeError

/-- SystemConfig.get_host: config.get("host", { }). -/
def getHostDoc (config : AList) : Yaml := getD config "host" (.map [])

/-- SystemConfig.update_host: one-level merge into the host mapping. -/
def updateHostDoc (config : AList) (settings : AList) : Except Err AList :=
  let c1 := if (dlookup "host" config).isNone
    then dictSet config "host" (.map []) else config
  match dlookup "host" c1 with
  | some (.map hm) => .ok (dictSet c1 "host" (.map (dictUpdate hm settings)))
  | _ => .error .attributeError

/-! ### CaptureConfig (src/binary/config/sections/capture.py) -/

/-- CaptureConfig.get_packet_capture_config: first entry of the capture
type sequence when it is a mapping, else an empty dict. -/
def getPacketCaptureDoc (config : AList) (captureType : String) : Yaml :=
  match dlookup captureType config with
  | some (.seq (first :: _)) =>
    match first with
    | .map m => .map m
    | _ => .map []
  | _ => .map []

/-- CaptureConfig.update_packet_capture_config: create a one-entry sequence
when the key is absent; merge settings into an existing mapping first
entry; otherwise replace the value wholesale with the one-entry sequence
containing settings. -/
def updatePacketCaptureDoc (config : AList) (captureType : String)
    (settings : AList) : AList :=
  let c1 := if (dlookup captureType config).isNone
    then dictSet config captureType (.seq [.map []]) else config
  match dlookup captureType c1 with
  | some (.seq (first :: rest)) =>
    match first with
    | .map m => dictSet c1 captureType (.seq (.map (dictUpdate m settings) :: rest))
    | _ => dictSet c1 captureType (.seq [.map settings])
  | some (.seq []) => dictSet c1 captureType (.seq [.map settings])
  | _ => dictSet c1 captureType (.seq [.map settings])

/-- The interface descriptor CaptureConfig.get_interfaces (and the
yaml_manager copy, which builds the identical dict) emits for an af-packet
entry: only mapping entries with an interface key contribute. -/
def afEntryOpt (y : Yaml) : Option Yaml :=
  match y with
  | .map m =>
    if (dlookup "interface" m).isSome then
      some (.map [("type", .str "af-packet"),
                  ("interface", getD m "interface" (.str "")),
                  ("threads", getD m "threads" (.str "auto")),
                  ("cluster-id", getD m "cluster-id" (.int 99)),
                  ("cluster-type", getD m "cluster-type" (.str "cluster_flow")),
                  ("enabled", .bool true)])
    else none
  | _ => none

/-- Descriptor for an af-xdp or dpdk entry (type passed in). -/
def threadsEntryOpt (ty : String) (y : Yaml) : Option Yaml :=
  match y with
  | .map m =>
    if (dlookup "interface" m).isSome then
      some (.map [("type", .str ty),
                  ("interface", getD m "interface" (.str "")),
                  ("threads", getD m "threads" (.str "auto")),
                  ("enabled", .bool true)])
    else none
  | _ => none

/-- Descriptor for a pcap entry. -/
def pcapEntryOpt (y : Yaml) : Option Yaml :=
  match y with
  | .map m =>
    if (dlookup "interface" m).isSome then
      some (.map [("type", .str "pcap"),
                  ("interface", getD m "interface" (.str "")),
                  ("enabled", .bool true)])
    else none
  | _ => none

/-- CaptureConfig.get_interfaces: union of the af-packet, af-xdp, dpdk and
pcap interfaces, in that order. -/
def captureGetInterfacesDoc (config : AList) : List Yaml :=
  (match dlookup "af-packet" config with
   | some (.seq xs) => xs.filterMap afEntryOpt
   | _ => [])
  ++ (match dlookup "af-xdp" config with
      | some (.seq xs) => xs.filterMap (threadsEntryOpt "af-xdp")
      | _ => [])
  ++ (match dlookup "dpdk" config with
      | some (.map dm) =>
        match dlookup "interfaces" dm with
        | some (.seq xs) => xs.filterMap (threadsEntryOpt "dpdk")
        | _ => []
      | _ => [])
  ++ (match dlookup "pcap" config with
      | some (.seq xs) => xs.filterMap pcapEntryOpt
      | _ => [])

/-- Does an input interface descriptor carry this type tag
(iface.get("type") == t on Python values)? -/
def typeIs (m : AList) (t : String) : Bool :=
  match dlookup "type" m with
  | some (.str s) => s == t
  | _ => false

/-- Truthiness of the enabled flag of an input descriptor
(iface.get("enabled")). -/
def ifaceEnabled (m : AList) : Bool := pyTruthy (getD m "enabled" .null)

/-- The af-packet dict update_interfaces writes for a kept descriptor. -/
def normAfPacket (m : AList) : Yaml :=
  .map [("interface", getD m "interface" (.str "")),
        ("threads", getD m "threads" (.str "auto")),
        ("cluster-id", getD m "cluster-id" (.int 99)),
        ("cluster-type", getD m "cluster-type" (.str "cluster_flow"))]

/-- The af-xdp / dpdk dict update_interfaces writes for a kept
descriptor. -/
def normThreads (m : AList) : Yaml :=
  .map [("interface", getD m "interface" (.str "")),
        ("threads", getD m "threads" (.str "auto"))]

/-- The pcap dict update_interfaces writes for a kept descriptor. -/
def normPcap (m : AList) : Yaml :=
  .map [("interface", getD m "interface" (.str ""))]

/-- One flat back-end write of update_interfaces: when the group is
non-empty, the key is rewritten wholesale with the normalized enabled
descriptors; an unrepresented back-end is left untouched. -/
def writeBackend (config : AList) (key : String) (group : List AList)
    (norm : AList → Yaml) : AList :=
  if group.isEmpty then config
  else dictSet config key (.seq ((group.filter ifaceEnabled).map norm))

/-- The dpdk write of update_interfaces: config["dpdk"]["interfaces"] is
rewritten wholesale (the dpdk mapping is created when absent; a present
non-mapping dpdk value raises at the nested item assignment). -/
def writeDpdk (config : AList) (group : List AList) : Except Err AList :=
  if group.isEmpty then .ok config
  else
    let c' := if (dlookup "dpdk" config).isNone
      then dictSet config "dpdk" (.map []) else config
    match dlookup "dpdk" c' with
    | some (.map dm) =>
      .ok (dictSet c' "dpdk" (.map (dictSet dm "interfaces"
        (.seq ((group.filter ifaceEnabled).map normThreads)))))
    | _ => .error .typeError

/-- CaptureConfig.update_interfaces on a loaded document: the input list is
grouped by type (iface.get("type") comparisons), disabled descriptors are
discarded, and the af-packet, af-xdp, dpdk and pcap subtrees are rewritten
in the order of the source. Input descriptors are mappings (a non-mapping
list element would raise at iface.get before any write). -/
def updateInterfacesDoc (config : AList) (ifaces : List AList) : Except Err AList :=
  match writeDpdk
      (writeBackend
        (writeBackend config "af-packet"
          (ifaces.filter (fun m => typeIs m "af-packet")) normAfPacket)
        "af-xdp" (ifaces.filter (fun m => typeIs m "af-xdp")) normThreads)
      (ifaces.filter (fun m => typeIs m "dpdk")) with
  | .error e => .error e
  | .ok c3 =>
    .ok (writeBackend c3 "pcap" (ifaces.filter (fun m => typeIs m "pcap")) normPcap)

/-! ### IPSConfig (src/binary/config/sections/ips.py) -/

/-- The scan of the af-packet sequence in IPSConfig.get_ips: the first
mapping entry with a truthy copy-mode contributes the two view keys. -/
def scanCopyMode : List Yaml → AList
  | [] => []
  | .map m :: rest =>
    if pyTruthy (getD m "copy-mode" .null) then
      [("af-packet-copy-mode", getD m "copy-mode" .null),
       ("af-packet-copy-iface", getD m "copy-iface" (.str ""))]
    else scanCopyMode rest
  | _ :: rest => scanCopyMode rest

/-- IPSConfig.get_ips: a view over four root keys plus the af-packet
copy-mode scan. -/
def getIpsDoc (config : AList) : AList :=
  (match dlookup "action-order" config with | some v => [("action-order", v)] | none => [])
  ++ (match dlookup "default-rule-action" config with
      | some v => [("default-rule-action", v)] | none => [])
  ++ (match dlookup "nfq" config with | some v => [("nfq", v)] | none => [])
  ++ (match dlookup "netmap" config with | some v => [("netmap", v)] | none => [])
  ++ (match dlookup "af-packet" config with
      | some (.seq xs) => scanCopyMode xs
      | _ => [])

/-- IPSConfig.update_ips: each present settings key written to the root;
af-packet-copy-mode goes to the first af-packet entry, creating the
sequence when absent and replacing a non-mapping first entry with a fresh
dict. -/
def updateIpsDoc (config : AList) (settings : AList) : AList :=
  let c1 := match dlookup "action-order" settings with
    | some v => dictSet config "action-order" v | none => config
  let c2 := match dlookup "default-rule-action" settings with
    | some v => dictSet c1 "default-rule-action" v | none => c1
  let c3 := match dlookup "nfq" settings with
    | some v => dictSet c2 "nfq" v | none => c2
  let c4 := match dlookup "netmap" settings with
    | some v => dictSet c3 "netmap" v | none => c3
  match dlookup "af-packet-copy-mode" settings with
  | none => c4
  | some cm =>
    let c5 := if (dlookup "af-packet" c4).isNone
      then dictSet c4 "af-packet" (.seq [.map []]) else c4
    match dlookup "af-packet" c5 with
    | some (.seq (first :: rest)) =>
      let m : AList := match first with | .map m => m | _ => []
      let m1 := dictSet m "copy-mode" cm
      let m2 := match dlookup "af-packet-copy-iface" settings with
        | some ci => dictSet m1 "copy-iface" ci
        | none => m1
      dictSet c5 "af-packet" (.seq (.map m2 :: rest))
    | _ => c5

/-! ### YAMLConfigManager (src/binary/config/yaml_manager.py)

yaml_manager.py is a standalone implementation with its own load/save and
its own copies of the section logic; its get_interfaces scans only the
af-packet and pcap sections. The per-entry dicts it builds are textually
identical to the ones CaptureConfig builds, so the same entry helpers are
reused. -/

/-- YAMLConfigManager.get_interfaces: af-packet and pcap only. -/
def ycmGetInterfacesDoc (config : AList) : List Yaml :=
  (match dlookup "af-packet" config with
   | some (.seq xs) => xs.filterMap afEntryOpt
   | _ => [])
  ++ (match dlookup "pcap" config with
      | some (.seq xs) => xs.filterMap pcapEntryOpt
      | _ => [])

/-! ### Full methods over the filesystem model (claim C5)

Each method is load, then the document mutation, then save, with the whole
body wrapped by the try/except-Exception-return-False of the source. A
non-mapping top-level document makes every section method raise at its
first dict operation on the document, modelled by asDictE. -/

/-- AppLayerConfig.update_protocol, full method. -/
def updateProtocolM (fs : Option Yaml) (so : Bool) (p : String) (e : Yaml)
    (s : AList) : Except Err Bool := do
  let y ← loadE fs
  let c ← asDictE y
  let c' ← updateProtocolDoc c p e s
  saveM so c'

/-- EngineConfig.update_stream, full method. -/
def updateStreamM (fs : Option Yaml) (so : Bool) (s : AList) : Except Err Bool := do
  let y ← loadE fs
  let c ← asDictE y
  saveM so (updateStreamDoc c s)

/-- EngineConfig.update_detection, full method. -/
def updateDetectionM (fs : Option Yaml) (so : Bool) (s : AList) : Except Err Bool := do
  let y ← loadE fs
  let c ← asDictE y
  saveM so (updateDetectionDoc c s)

/-- SystemConfig.update_vars, full method. -/
def updateVarsM (fs : Option Yaml) (so : Bool) (vars : AList) : Except Err Bool := do
  let y ← loadE fs
  let c ← asDictE y
  saveM so (updateVarsDoc c vars)

/-- SystemConfig.update_var, full method. -/
def updateVarM (fs : Option Yaml) (so : Bool) (n : String) (v : Yaml) : Except Err Bool := do
  let y ← loadE fs
  let c ← asDictE y
  let c' ← updateVarDoc c n v
  saveM so c'

/-- SystemConfig.update_output, full method. -/
def updateOutputM (fs : Option Yaml) (so : Bool) (n : String) (e : Yaml)
    (s : AList) : Except Err Bool := do
  let y ← loadE fs
  let c ← asDictE y
  let c' ← updateOutputDoc c n e s
  saveM so c'

/-- SystemConfig.update_logging, full method. -/
def updateLoggingM (fs : Option Yaml) (so : Bool) (s : AList) : Except Err Bool := do
  let y ← loadE fs
  let c ← asDictE y
  let c' ← updateLoggingDoc c s
  saveM so c'

/-- SystemConfig.update_host, full method. -/
def updateHostM (fs : Option Yaml) (so : Bool) (s : AList) : Except Err Bool := do
  let y ← loadE fs
  let c ← asDictE y
  let c' ← updateHostDoc c s
  saveM so c'

/-- CaptureConfig.update_packet_capture_config, full method. -/
def updatePacketCaptureM (fs : Option Yaml) (so : Bool) (ct : String)
    (s : AList) : Except Err Bool := do
  let y ← loadE fs
  let c ← asDictE y
  saveM so (updatePacketCaptureDoc c ct s)

/-- CaptureConfig.update_interfaces, full method. -/
def updateInterfacesM (fs : Option Yaml) (so : Bool) (ifaces : List AList) :
    Except Err Bool := do
  let y ← loadE fs
  let c ← asDictE y
  let c' ← updateInterfacesDoc c ifaces
  saveM so c'

/-- IPSConfig.update_ips, full method. -/
def updateIpsM (fs : Option Yaml) (so : Bool) (s : AList) : Except Err Bool := do
  let y ← loadE fs
  let c ← asDictE y
  saveM so (updateIpsDoc c s)

/-- AppLayerConfig.get_protocols, full method. -/
def getProtocolsM (fs : Option Yaml) : Except Err Yaml := do
  let y ← loadE fs
  let c ← asDictE y
  getProtocolsDoc c

/-- EngineConfig.get_stream, full method. -/
def getStreamM (fs : Option Yaml) : Except Err AList := do
  let y ← loadE fs
  let c ← asDictE y
  pure (getStreamDoc c)

/-- EngineConfig.get_detection, full method. -/
def getDetectionM (fs : Option Yaml) : Except Err AList := do
  let y ← loadE fs
  let c ← asDictE y
  pure (getDetectionDoc c)

/-- SystemConfig.get_vars, full method. -/
def getVarsM (fs : Option Yaml) : Except Err Yaml := do
  let y ← loadE fs
  let c ← asDictE y
  pure (getVarsDoc c)

/-- SystemConfig.get_outputs, full method. -/
def getOutputsM (fs : Option Yaml) : Except Err AList := do
  let y ← loadE fs
  let c ← asDictE y
  pure (getOutputsDoc c)

/-- SystemConfig.get_logging, full method. -/
def getLoggingM (fs : Option Yaml) : Except Err Yaml := do
  let y ← loadE fs
  let c ← asDictE y
  pure (getLoggingDoc c)

/-- SystemConfig.get_host, full method. -/
def getHostM (fs : Option Yaml) : Except Err Yaml := do
  let y ← loadE fs
  let c ← asDictE y
  pure (getHostDoc c)

/-- CaptureConfig.get_packet_capture_config, full method. -/
def getPacketCaptureM (fs : Option Yaml) (ct : String) : Except Err Yaml := do
  let y ← loadE fs
  let c ← asDictE y
  pure (getPacketCaptureDoc c ct)

/-- CaptureConfig.get_interfaces, full method. -/
def getInterfacesM (fs : Option Yaml) : Except Err (List Yaml) := do
  let y ← loadE fs
  let c ← asDictE y
  pure (captureGetInterfacesDoc c)

/-- IPSConfig.get_ips, full method. -/
def getIpsM (fs : Option Yaml) : Except Err AList := do
  let y ← loadE fs
  let c ← asDictE y
  pure (getIpsDoc c)

/-- The Bool every mutation method actually returns: the body with its
try/except wrapper. -/
def updateProtocolMethod (fs : Option Yaml) (so : Bool) (p : String) (e : Yaml)
    (s : AList) : Bool := swallow (updateProtocolM fs so p e s)

/-- update_stream with its try/except wrapper. -/
def updateStreamMethod (fs : Option Yaml) (so : Bool) (s : AList) : Bool :=
  swallow (updateStreamM fs so s)

/-- update_detection with its try/except wrapper. -/
def updateDetectionMethod (fs : Option Yaml) (so : Bool) (s : AList) : Bool :=
  swallow (updateDetectionM fs so s)

/-- update_vars with its try/except wrapper. -/
def updateVarsMethod (fs : Option Yaml) (so : Bool) (vs : AList) : Bool :=
  swallow (updateVarsM fs so vs)

/-- update_var with its try/except wrapper. -/
def updateVarMethod (fs : Option Yaml) (so : Bool) (n : String) (v : Yaml) : Bool :=
  swallow (updateVarM fs so n v)

/-- update_output with its try/except wrapper. -/
def updateOutputMethod (fs : Option Yaml) (so : Bool) (n : String) (e : Yaml)
    (s : AList) : Bool := swallow (updateOutputM fs so n e s)

/-- update_logging with its try/except wrapper. -/
def updateLoggingMethod (fs : Option Yaml) (so : Bool) (s : AList) : Bool :=
  swallow (updateLoggingM fs so s)

/-- update_host with its try/except wrapper. -/
def updateHostMethod (fs : Option Yaml) (so : Bool) (s : AList) : Bool :=
  swallow (updateHostM fs so s)

/-- update_packet_capture_config with its try/except wrapper. -/
def updatePacketCaptureMethod (fs : Option Yaml) (so : Bool) (ct : String)
    (s : AList) : Bool := swallow (updatePacketCaptureM fs so ct s)

/-- update_interfaces with its try/except wrapper. -/
def updateInterfacesMethod (fs : Option Yaml) (so : Bool) (ifaces : List AList) : Bool :=
  swallow (updateInterfacesM fs so ifaces)

/-- update_ips with its try/except wrapper. -/
def updateIpsMethod (fs : Option Yaml) (so : Bool) (s : AList) : Bool :=
  swallow (updateIpsM fs so s)

@[simp] theorem oElse_some (x : Yaml) (b : Option Yaml) : oElse (some x) b = some x := rfl

@[simp] theorem oElse_none (b : Option Yaml) : oElse none b = b := rfl

@[simp] theorem oElse_none_right (a : Option Yaml) : oElse a none = a := by
  cases a <;> rfl

@[simp] theorem dlookup_nil (k : String) : dlookup k [] = none := rfl

@[simp] theorem dlookup_cons (k k' : String) (v : Yaml) (t : AList) :
    dlookup k ((k', v) :: t) = if k' = k then some v else dlookup k t := rfl

@[simp] theorem dictSet_nil (k : String) (v : Yaml) : dictSet [] k v = [(k, v)] := rfl

@[simp] theorem dictSet_cons (k k' : String) (v v' : Yaml) (t : AList) :
    dictSet ((k', v') :: t) k v =
      if k' = k then (k, v) :: t else (k', v') :: dictSet t k v := rfl

@[simp] theorem dlookupLast_nil (k : String) : dlookupLast k [] = none := rfl

@[simp] theorem dlookupLast_cons (k k' : String) (v : Yaml) (t : AList) :
    dlookupLast k ((k', v) :: t) =
      oElse (dlookupLast k t) (if k' = k then some v else none) := rfl

@[simp] theorem keysOf_nil : keysOf [] = [] := rfl

@[simp] theorem keysOf_cons (k : String) (v : Yaml) (t : AList) :
    keysOf ((k, v) :: t) = k :: keysOf t := rfl

@[simp] theorem dictUpdate_nil (d : AList) : dictUpdate d [] = d := rfl

@[simp] theorem dictUpdate_cons (d : AList) (k : String) (v : Yaml) (t : AList) :
    dictUpdate d ((k, v) :: t) = dictUpdate (dictSet d k v) t := rfl

theorem dlookup_dictSet (k k' : String) (v : Yaml) (d : AList) :
    dlookup k' (dictSet d k v) = if k' = k then some v else dlookup k' d := by
  induction d with
  | nil =>
    rcases eq_or_ne k' k with h | h
    · subst h; simp
    · simp [h, Ne.symm h]
  | cons p t ih =>
    obtain ⟨k₀, v₀⟩ := p
    rcases eq_or_ne k₀ k with h0 | h0
    · subst h0
      rcases eq_or_ne k' k₀ with h1 | h1
      · subst h1; simp
      · simp [h1, Ne.symm h1]
    · rcases eq_or_ne k₀ k' with h1 | h1
      · subst h1
        simp [h0, Ne.symm h0, ih]
      · simp [h0, h1, ih]

@[simp] theorem dlookup_dictSet_self (k : String) (v : Yaml) (d : AList) :
    dlookup k (dictSet d k v) = some v := by
  simp [dlookup_dictSet]

theorem dlookup_dictSet_ne (k k' : String) (v : Yaml) (d : AList) (h : k' ≠ k) :
    dlookup k' (dictSet d k v) = dlookup k' d := by
  simp [dlookup_dictSet, h]

theorem mem_keysOf_dictSet (k : String) (v : Yaml) (d : AList) :
    k ∈ keysOf (dictSet d k v) := by
  induction d with
  | nil => simp
  | cons p t ih =>
    obtain ⟨k₀, v₀⟩ := p
    rcases eq_or_ne k₀ k with h0 | h0 <;> simp [h0]
    · exact Or.inr ih

theorem mem_keysOf_dictSet_of_mem (k k₀ : String) (v : Yaml) (d : AList)
    (h : k ∈ keysOf d) : k ∈ keysOf (dictSet d k₀ v) := by
  induction d with
  | nil => simp at h
  | cons p t ih =>
    obtain ⟨k₁, v₁⟩ := p
    rcases eq_or_ne k₁ k₀ with h1 | h1
    · subst h1
      simp at h
      rcases h with h | h
      · subst h; simp
      · simp [h]
    · simp at h
      rcases h with h | h
      · subst h; simp [h1]
      · simp [h1]
        exact Or.inr (ih h)

theorem mem_keysOf_dictUpdate_of_mem (k : String) (d s : AList)
    (h : k ∈ keysOf d) : k ∈ keysOf (dictUpdate d s) := by
  induction s generalizing d with
  | nil => simpa using h
  | cons p t ih =>
    obtain ⟨k₀, v₀⟩ := p
    rw [dictUpdate_cons]
    exact ih _ (mem_keysOf_dictSet_of_mem k k₀ v₀ d h)

theorem dlookup_dictUpdate (k : String) (d s : AList) :
    dlookup k (dictUpdate d s) = oElse (dlookupLast k s) (dlookup k d) := by
  induction s generalizing d with
  | nil => simp
  | cons p t ih =>
    obtain ⟨k₀, v₀⟩ := p
    rw [dictUpdate_cons, ih, dlookupLast_cons]
    cases h : dlookupLast k t with
    | some w => simp
    | none =>
      rcases eq_or_ne k₀ k with h0 | h0
      · subst h0; simp
      · simp [h0, dlookup_dictSet, Ne.symm h0]

theorem dictSet_dictSet_same (d : AList) (k : String) (v w : Yaml) :
    dictSet (dictSet d k v) k w = dictSet d k w := by
  induction d with
  | nil => simp
  | cons p t ih =>
    obtain ⟨k₀, v₀⟩ := p
    rcases eq_or_ne k₀ k with h0 | h0 <;> simp [h0, ih]

theorem dictSet_eq_self_of_dlookup (d : AList) (k : String) (v : Yaml)
    (h : dlookup k d = some v) : dictSet d k v = d := by
  induction d with
  | nil => simp at h
  | cons p t ih =>
    obtain ⟨k₀, v₀⟩ := p
    rcases eq_or_ne k₀ k with h0 | h0
    · subst h0
      simp at h
      simp [h]
    · simp [h0] at h
      simp [h0, ih h]

theorem dictSet_comm_of_mem (d : AList) (k k' : String) (v v' : Yaml)
    (hk : k ∈ keysOf d) (hne : k' ≠ k) :
    dictSet (dictSet d k v) k' v' = dictSet (dictSet d k' v') k v := by
  induction d with
  | nil => simp at hk
  | cons p t ih =>
    obtain ⟨k₀, v₀⟩ := p
    simp at hk
    rcases eq_or_ne k₀ k with h0 | h0
    · subst h0
      simp [hne, Ne.symm hne]
    · rcases hk with hk | hk
      · exact absurd hk.symm h0
      · rcases eq_or_ne k₀ k' with h1 | h1
        · subst h1
          simp [h0]
        · simp [h0, h1, ih hk]

theorem dictUpdate_dictSet_absorb (d : AList) (k : String) (v : Yaml) (t : AList)
    (hk : k ∈ keysOf d) :
    dictUpdate (dictSet d k v) t =
      dictSet (dictUpdate d t) k ((dlookupLast k t).getD v) := by
  induction t generalizing d v with
  | nil => simp
  | cons p t' ih =>
    obtain ⟨k₁, v₁⟩ := p
    rcases eq_or_ne k₁ k with h1 | h1
    · subst h1
      have harg : (dlookupLast k₁ ((k₁, v₁) :: t')).getD v = (dlookupLast k₁ t').getD v₁ := by
        rw [dlookupLast_cons]
        cases h : dlookupLast k₁ t' <;> simp
      rw [dictUpdate_cons, dictSet_dictSet_same, dictUpdate_cons, harg]
      have hih := ih (dictSet d k₁ v₁) v₁ (mem_keysOf_dictSet k₁ v₁ d)
      rwa [dictSet_dictSet_same] at hih
    · have harg : (dlookupLast k ((k₁, v₁) :: t')).getD v = (dlookupLast k t').getD v := by
        rw [dlookupLast_cons]
        cases h : dlookupLast k t' with
        | some w => simp
        | none => simp [h1]
      rw [dictUpdate_cons, dictSet_comm_of_mem d k k₁ v v₁ hk h1, dictUpdate_cons, harg]
      exact ih (dictSet d k₁ v₁) v (mem_keysOf_dictSet_of_mem k k₁ v₁ d hk)

theorem dictUpdate_idem (d s : AList) :
    dictUpdate (dictUpdate d s) s = dictUpdate d s := by
  induction s generalizing d with
  | nil => simp
  | cons p t ih =>
    obtain ⟨k, v⟩ := p
    rw [dictUpdate_cons, dictUpdate_cons]
    have hk : k ∈ keysOf (dictUpdate (dictSet d k v) t) :=
      mem_keysOf_dictUpdate_of_mem k _ t (mem_keysOf_dictSet k v d)
    rw [dictUpdate_dictSet_absorb _ k v t hk, ih (dictSet d k v)]
    apply dictSet_eq_self_of_dlookup
    rw [dlookup_dictUpdate]
    cases h : dlookupLast k t with
    | some w => simp
    | none => simp

/-! ## Claim C2 -/

/-- Claim C2: to_bool maps a string to true exactly when its
whitespace-trimmed, lowercased form is one of 1, true, yes, on, and to
false for every other string; every non-string value goes through Python
truthiness, so every falsy non-string value (None, False, 0, empty
containers) maps to false; in particular to_bool("YES") and to_bool("On")
are true, and to_bool("0"), to_bool(""), to_bool(None) are false while
to_bool(True) is true. -/
theorem to_bool_normalization :
    (∀ s : String, to_bool (.str s) = true ↔ pyLower (pyStrip s) ∈ trueValues) ∧
    (∀ v : Yaml, v.isStrV = false → to_bool v = pyTruthy v) ∧
    to_bool (.str "YES") = true ∧ to_bool (.str "On") = true ∧
    to_bool (.str "0") = false ∧ to_bool (.str "") = false ∧
    to_bool .null = false ∧ to_bool (.bool true) = true := by
  refine ⟨?_, ?_, by decide, by decide, by decide, by decide, rfl, rfl⟩
  · intro s
    simp [to_bool, List.elem_iff]
  · intro v hv
    cases v <;> simp [to_bool, Yaml.isStrV] at hv ⊢

/-- Witness for C2: the non-string clause applied at the falsy value 0. -/
theorem to_bool_normalization_witness : to_bool (.int 0) = false := by
  have h := to_bool_normalization.2.1 (.int 0) rfl
  simpa [pyTruthy] using h

/-! ## Claim C1 -/

theorem mem_dumpTokensSeq {t : Token} {xs : List Yaml} (h : t ∈ dumpTokensSeq xs) :
    ∃ x ∈ xs, t ∈ dumpTokens x := by
  induction xs with
  | nil => simp [dumpTokensSeq] at h
  | cons x xs ih =>
    rw [dumpTokensSeq, List.mem_append] at h
    rcases h with h | h
    · exact ⟨x, List.mem_cons_self x xs, h⟩
    · obtain ⟨x', hx', ht'⟩ := ih h
      exact ⟨x', List.mem_cons_of_mem x hx', ht'⟩

theorem mem_dumpTokensMap {t : Token} {m : List (String × Yaml)}
    (h : t ∈ dumpTokensMap m) :
    (∃ kv ∈ m, t = ⟨.keyTok, kv.1⟩) ∨ ∃ kv ∈ m, t ∈ dumpTokens kv.2 := by
  induction m with
  | nil => simp [dumpTokensMap] at h
  | cons kv m ih =>
    obtain ⟨k, v⟩ := kv
    rw [dumpTokensMap, List.mem_cons, List.mem_append] at h
    rcases h with h | h | h
    · exact Or.inl ⟨(k, v), List.mem_cons_self _ _, h⟩
    · exact Or.inr ⟨(k, v), List.mem_cons_self _ _, h⟩
    · rcases ih h with ⟨kv', hkv', ht'⟩ | ⟨kv', hkv', ht'⟩
      · exact Or.inl ⟨kv', List.mem_cons_of_mem _ hkv', ht'⟩
      · exact Or.inr ⟨kv', List.mem_cons_of_mem _ hkv', ht'⟩

theorem dumpTokens_bool_text_aux :
    ∀ (n : Nat) (y : Yaml), sizeOf y ≤ n → ∀ t ∈ dumpTokens y,
      t.kind = TokKind.boolTok → t.text = "yes" ∨ t.text = "no" := by
  intro n
  induction n with
  | zero =>
    intro y hy
    exfalso
    cases y <;> simp at hy
  | succ n ih =>
    intro y hy t ht hk
    cases y with
    | null =>
      rw [dumpTokens, List.mem_singleton] at ht
      rw [ht] at hk
      simp at hk
    | bool b =>
      rw [dumpTokens, List.mem_singleton] at ht
      cases b
      · right; rw [ht]; rfl
      · left; rw [ht]; rfl
    | int n' =>
      rw [dumpTokens, List.mem_singleton] at ht
      rw [ht] at hk
      simp at hk
    | str s =>
      rw [dumpTokens, List.mem_singleton] at ht
      rw [ht] at hk
      simp at hk
    | seq xs =>
      rw [dumpTokens] at ht
      obtain ⟨x, hx, htx⟩ := mem_dumpTokensSeq ht
      have h1 := List.sizeOf_lt_of_mem hx
      have h2 : sizeOf (Yaml.seq xs) = 1 + sizeOf xs := by simp
      exact ih x (by omega) t htx hk
    | map m =>
      rw [dumpTokens] at ht
      rcases mem_dumpTokensMap ht with ⟨kv, hkv, hteq⟩ | ⟨kv, hkv, htv⟩
      · rw [hteq] at hk
        simp at hk
      · have h1 := List.sizeOf_lt_of_mem hkv
        obtain ⟨k, v⟩ := kv
        have h2 : sizeOf (Yaml.map m) = 1 + sizeOf m := by simp
        have h3 : sizeOf ((k, v) : String × Yaml) = 1 + sizeOf k + sizeOf v := by simp
        exact ih v (by simp at h1 h3 ⊢; omega) t htv hk

/-- Claim C1: every boolean value anywhere in a document saved through the
SuricataDumper serializes as the scalar text yes or no: in the token
stream of the dump, every token produced by a bool node has text yes or
no, and in particular never true, false, 1 or 0. -/
theorem bool_tokens_yes_no (doc : Yaml) (t : Token)
    (ht : t ∈ dumpTokens doc) (hk : t.kind = TokKind.boolTok) :
    (t.text = "yes" ∨ t.text = "no") ∧
      t.text ≠ "true" ∧ t.text ≠ "false" ∧ t.text ≠ "1" ∧ t.text ≠ "0" := by
  have h := dumpTokens_bool_text_aux (sizeOf doc) doc le_rfl t ht hk
  rcases h with h | h <;> rw [h] <;>
    exact ⟨by simp, by decide, by decide, by decide, by decide⟩

/-- Witness for C1: a document holding the boolean True emits the bool
token with text yes. -/
theorem bool_tokens_yes_no_witness :
    (Token.mk TokKind.boolTok "yes").text = "yes" ∨
      (Token.mk TokKind.boolTok "yes").text = "no" :=
  (bool_tokens_yes_no (Yaml.map [("enabled", Yaml.bool true)])
    (Token.mk TokKind.boolTok "yes")
    (by rw [dumpTokens, dumpTokensMap, dumpTokens, dumpTokensMap]; simp [represent_bool])
    rfl).1

/-! ## Claim C9 -/

/-- Counterexample to claim C9 as stated: on a document whose stream key
holds a non-mapping value, get_stream returns the empty mapping, which has
no reassembly key at all. -/
theorem getStream_no_reassembly_on_scalar_stream :
    dlookup "reassembly" (getStreamDoc [("stream", Yaml.str "tcp")]) = none := rfl

/-- Claim C9 amended: whenever the stream key is absent or holds a mapping,
the mapping returned by get_stream contains a reassembly key holding a
mapping (the existing one when it was a mapping, empty otherwise); when the
stream key holds a non-mapping value, get_stream instead returns the empty
mapping without a reassembly key. -/
theorem getStream_reassembly_present (config : AList)
    (h : dlookup "stream" config = none ∨ ∃ m, dlookup "stream" config = some (.map m)) :
    ∃ rm : AList, dlookup "reassembly" (getStreamDoc config) = some (.map rm) := by
  rcases h with h | ⟨m, h⟩
  · refine ⟨[], ?_⟩
    simp [getStreamDoc, getD, h]
  · simp only [getStreamDoc, getD, h, Option.getD_some]
    cases hr : dlookup "reassembly" m with
    | none => exact ⟨[], by simp [hr]⟩
    | some v =>
      cases v with
      | map rm => exact ⟨rm, by simp [hr]⟩
      | null => exact ⟨[], by simp [hr]⟩
      | bool b => exact ⟨[], by simp [hr]⟩
      | int n => exact ⟨[], by simp [hr]⟩
      | str s => exact ⟨[], by simp [hr]⟩
      | seq xs => exact ⟨[], by simp [hr]⟩

/-- Witness for C9 amended: on the empty document get_stream returns a
mapping with a reassembly mapping. -/
theorem getStream_reassembly_present_witness :
    ∃ rm : AList, dlookup "reassembly" (getStreamDoc []) = some (.map rm) :=
  getStream_reassembly_present [] (Or.inl rfl)

/-! ## Claim C6 -/

/-- Counterexample to claim C6 as stated: YAMLConfigManager.get_interfaces
is not equal to CaptureConfig.get_interfaces on every document - on a
document with one af-xdp interface the facade copy returns the empty list
while the section manager returns that interface. -/
theorem ycm_get_interfaces_ne_capture :
    ycmGetInterfacesDoc [("af-xdp", Yaml.seq [Yaml.map [("interface", Yaml.str "eth0")]])] ≠
      captureGetInterfacesDoc [("af-xdp", Yaml.seq [Yaml.map [("interface", Yaml.str "eth0")]])] := by
  intro h
  have h0 : (ycmGetInterfacesDoc
      [("af-xdp", Yaml.seq [Yaml.map [("interface", Yaml.str "eth0")]])]).length = 0 := rfl
  have h1 : (captureGetInterfacesDoc
      [("af-xdp", Yaml.seq [Yaml.map [("interface", Yaml.str "eth0")]])]).length = 1 := rfl
  rw [h] at h0
  exact absurd (h0.symm.trans h1) (by decide)

/-- Claim C6 amended: YAMLConfigManager is an independent implementation
rather than a pure delegator; its get_interfaces scans only the af-packet
and pcap sections, so it returns the same list as
CaptureConfig.get_interfaces exactly on documents that have no af-xdp and
no dpdk keys. -/
theorem ycm_get_interfaces_agrees_without_xdp_dpdk (config : AList)
    (h1 : dlookup "af-xdp" config = none) (h2 : dlookup "dpdk" config = none) :
    ycmGetInterfacesDoc config = captureGetInterfacesDoc config := by
  unfold ycmGetInterfacesDoc captureGetInterfacesDoc
  rw [h1, h2]
  simp

/-- Witness for C6 amended: on an af-packet-only document the two
implementations return the same list. -/
theorem ycm_get_interfaces_agrees_witness :
    ycmGetInterfacesDoc [("af-packet", Yaml.seq [Yaml.map [("interface", Yaml.str "eth1")]])] =
      captureGetInterfacesDoc [("af-packet", Yaml.seq [Yaml.map [("interface", Yaml.str "eth1")]])] :=
  ycm_get_interfaces_agrees_without_xdp_dpdk _ rfl rfl

/-! ## Claim C3 -/

theorem dlookup_eq_none_of_not_mem (k : String) (s : AList) (h : k ∉ keysOf s) :
    dlookup k s = none := by
  induction s with
  | nil => rfl
  | cons p t ih =>
    obtain ⟨k', v⟩ := p
    simp at h
    push_neg at h
    simp [Ne.symm h.1, ih h.2]

theorem dlookupLast_eq_none_of_not_mem (k : String) (s : AList) (h : k ∉ keysOf s) :
    dlookupLast k s = none := by
  induction s with
  | nil => rfl
  | cons p t ih =>
    obtain ⟨k', v⟩ := p
    simp at h
    push_neg at h
    simp [ih h.2, Ne.symm h.1]

theorem dlookupLast_eq_dlookup_of_nodup (k : String) (s : AList)
    (h : (keysOf s).Nodup) : dlookupLast k s = dlookup k s := by
  induction s with
  | nil => rfl
  | cons p t ih =>
    obtain ⟨k', v⟩ := p
    simp only [keysOf_cons, List.nodup_cons] at h
    rcases eq_or_ne k' k with hk | hk
    · subst hk
      rw [dlookupLast_cons, dlookupLast_eq_none_of_not_mem k' t h.1]
      simp
    · rw [dlookupLast_cons, ih h.2]
      simp [hk]

theorem dlookupLast_filter_ne (k kf : String) (s : AList) (h : k ≠ kf) :
    dlookupLast k (s.filter (fun p => p.1 != kf)) = dlookupLast k s := by
  induction s with
  | nil => rfl
  | cons p t ih =>
    obtain ⟨ka, va⟩ := p
    by_cases hkf : ka = kf
    · rw [List.filter_cons_of_neg (by simpa using hkf), ih, dlookupLast_cons]
      have hka : ka ≠ k := by rw [hkf]; exact Ne.symm h
      simp [hka]
    · rw [List.filter_cons_of_pos (by simpa using hkf), dlookupLast_cons,
        dlookupLast_cons, ih]

theorem dlookupLast_filter_self (kf : String) (s : AList) :
    dlookupLast kf (s.filter (fun p => p.1 != kf)) = none := by
  apply dlookupLast_eq_none_of_not_mem
  intro hmem
  simp only [keysOf, List.mem_map] at hmem
  obtain ⟨p, hp, hk⟩ := hmem
  rw [List.mem_filter] at hp
  rw [hk] at hp
  simp at hp

theorem dlookup_streamMergeU1_ne (config settings : AList) (k : String)
    (h : k ≠ "reassembly") :
    dlookup k (streamMergeU1 config settings) = dlookup k (existingStream config) := by
  unfold streamMergeU1
  cases hrs : dlookup "reassembly" settings with
  | none => rfl
  | some v =>
    cases v with
    | map rs => exact dlookup_dictSet_ne "reassembly" k _ _ h
    | null => rfl
    | bool b => rfl
    | int n => rfl
    | str s => rfl
    | seq xs => rfl

/-- Claim C3: update_stream performs a two-level merge into the stream
subtree: the resulting stream mapping takes every non-reassembly key from
settings first and otherwise from the existing stream; a reassembly
mapping in settings is merged one level deeper on top of the existing
reassembly mapping; a missing (or non-mapping) reassembly in settings
leaves the existing reassembly untouched; keys outside stream are
unchanged. -/
theorem update_stream_two_level_merge (config settings : AList)
    (hnd : (keysOf settings).Nodup) :
    ∃ st : AList,
      dlookup "stream" (updateStreamDoc config settings) = some (.map st) ∧
      (∀ k, k ≠ "reassembly" →
        dlookup k st = oElse (dlookup k settings) (dlookup k (existingStream config))) ∧
      (∀ rs : AList, dlookup "reassembly" settings = some (.map rs) →
        dlookup "reassembly" st =
          some (.map (dictUpdate (existingReassembly config) rs))) ∧
      ((∀ rs : AList, dlookup "reassembly" settings ≠ some (.map rs)) →
        dlookup "reassembly" st = dlookup "reassembly" (existingStream config)) ∧
      (∀ k, k ≠ "stream" →
        dlookup k (updateStreamDoc config settings) = dlookup k config) := by
  refine ⟨streamMergeResult config settings, ?_, ?_, ?_, ?_, ?_⟩
  · exact dlookup_dictSet_self "stream" _ config
  · intro k hk
    unfold streamMergeResult
    rw [dlookup_dictUpdate, dlookupLast_filter_ne k "reassembly" settings hk,
      dlookupLast_eq_dlookup_of_nodup k settings hnd,
      dlookup_streamMergeU1_ne config settings k hk]
  · intro rs hrs
    unfold streamMergeResult
    rw [dlookup_dictUpdate, dlookupLast_filter_self "reassembly" settings]
    unfold streamMergeU1
    rw [hrs]
    simp
  · intro hno
    unfold streamMergeResult
    rw [dlookup_dictUpdate, dlookupLast_filter_self "reassembly" settings]
    unfold streamMergeU1
    cases hrs : dlookup "reassembly" settings with
    | none => simp
    | some v =>
      cases v with
      | map rs => exact absurd hrs (hno rs)
      | null => simp
      | bool b => simp
      | int n => simp
      | str s => simp
      | seq xs => simp
  · intro k hk
    exact dlookup_dictSet_ne "stream" k _ config hk

/-- Witness for C3: the merge at the example of the spec - stream has
memcap 32mb and reassembly depth 1mb, settings overwrite reassembly depth
with 2mb and add inline yes. -/
theorem update_stream_two_level_merge_witness :
    ∃ st : AList,
      dlookup "stream" (updateStreamDoc
        [("stream", Yaml.map [("memcap", Yaml.str "32mb"),
          ("reassembly", Yaml.map [("depth", Yaml.str "1mb")])])]
        [("reassembly", Yaml.map [("depth", Yaml.str "2mb")]),
         ("inline", Yaml.str "yes")]) = some (.map st) ∧
      (∀ k, k ≠ "reassembly" →
        dlookup k st = oElse (dlookup k [("reassembly", Yaml.map [("depth", Yaml.str "2mb")]),
          ("inline", Yaml.str "yes")])
          (dlookup k (existingStream [("stream", Yaml.map [("memcap", Yaml.str "32mb"),
            ("reassembly", Yaml.map [("depth", Yaml.str "1mb")])])]))) ∧
      (∀ rs : AList,
        dlookup "reassembly" [("reassembly", Yaml.map [("depth", Yaml.str "2mb")]),
          ("inline", Yaml.str "yes")] = some (.map rs) →
        dlookup "reassembly" st =
          some (.map (dictUpdate (existingReassembly
            [("stream", Yaml.map [("memcap", Yaml.str "32mb"),
              ("reassembly", Yaml.map [("depth", Yaml.str "1mb")])])]) rs))) ∧
      ((∀ rs : AList,
        dlookup "reassembly" [("reassembly", Yaml.map [("depth", Yaml.str "2mb")]),
          ("inline", Yaml.str "yes")] ≠ some (.map rs)) →
        dlookup "reassembly" st = dlookup "reassembly"
          (existingStream [("stream", Yaml.map [("memcap", Yaml.str "32mb"),
            ("reassembly", Yaml.map [("depth", Yaml.str "1mb")])])])) ∧
      (∀ k, k ≠ "stream" →
        dlookup k (updateStreamDoc
          [("stream", Yaml.map [("memcap", Yaml.str "32mb"),
            ("reassembly", Yaml.map [("depth", Yaml.str "1mb")])])]
          [("reassembly", Yaml.map [("depth", Yaml.str "2mb")]),
           ("inline", Yaml.str "yes")]) =
          dlookup k [("stream", Yaml.map [("memcap", Yaml.str "32mb"),
            ("reassembly", Yaml.map [("depth", Yaml.str "1mb")])])]) :=
  update_stream_two_level_merge
    [("stream", Yaml.map [("memcap", Yaml.str "32mb"),
      ("reassembly", Yaml.map [("depth", Yaml.str "1mb")])])]
    [("reassembly", Yaml.map [("depth", Yaml.str "2mb")]),
     ("inline", Yaml.str "yes")]
    (by decide)

/-! ## Claims C4 and C10: update_output machinery -/

theorem contains_of_dlookup (name : String) (m : AList) (v : Yaml)
    (h : dlookup name m = some v) : (keysOf m).contains name = true := by
  induction m with
  | nil => simp at h
  | cons p t ih =>
    obtain ⟨k, w⟩ := p
    rcases eq_or_ne k name with hk | hk
    · simp [hk]
    · rw [dlookup_cons, if_neg hk] at h
      have hmem := ih h
      simp at hmem ⊢
      exact Or.inr hmem

theorem updateOutputsLoop_append (name : String) (flag : Bool) (settings : AList)
    (pre rest : List Yaml) (hpre : ∀ e ∈ pre, pyContains e name = .ok false) :
    updateOutputsLoop name flag settings (pre ++ rest) =
      match updateOutputsLoop name flag settings rest with
      | .ok none => .ok none
      | .ok (some rest') => .ok (some (pre ++ rest'))
      | .error err => .error err := by
  induction pre with
  | nil =>
    simp only [List.nil_append]
    cases h : updateOutputsLoop name flag settings rest with
    | ok o => cases o <;> simp
    | error e => simp
  | cons e pre ih =>
    have he := hpre e (List.mem_cons_self e pre)
    have hpre' : ∀ x ∈ pre, pyContains x name = .ok false :=
      fun x hx => hpre x (List.mem_cons_of_mem e hx)
    rw [List.cons_append]
    simp only [updateOutputsLoop, he, ih hpre']
    cases h : updateOutputsLoop name flag settings rest with
    | ok o => cases o <;> simp
    | error err => simp

theorem updateOutputDoc_found_map (config : AList) (name : String) (enabled : Yaml)
    (settings : AList) (pre post : List Yaml) (m mv : AList)
    (hout : dlookup "outputs" config = some (.seq (pre ++ .map m :: post)))
    (hpre : ∀ e ∈ pre, pyContains e name = .ok false)
    (hfound : dlookup name m = some (.map mv)) :
    updateOutputDoc config name enabled settings =
      .ok (dictSet config "outputs" (.seq (pre ++ .map (dictSet m name (.map
        (dictUpdate (dictSet mv "enabled" (.bool (to_bool enabled))) settings))) :: post))) := by
  have hhead : updateOutputsLoop name (to_bool enabled) settings (.map m :: post) =
      .ok (some (.map (dictSet m name (.map
        (dictUpdate (dictSet mv "enabled" (.bool (to_bool enabled))) settings))) :: post)) := by
    simp only [updateOutputsLoop, pyContains,
      contains_of_dlookup name m (.map mv) hfound, outputHit, hfound]
  rw [updateOutputDoc, hout]
  simp only [Option.isNone_some, Bool.false_eq_true, if_false, hout,
    updateOutputsLoop_append name (to_bool enabled) settings pre _ hpre, hhead]

theorem updateOutputDoc_found_scalar (config : AList) (name : String) (enabled : Yaml)
    (settings : AList) (pre post : List Yaml) (m : AList) (v : Yaml)
    (hout : dlookup "outputs" config = some (.seq (pre ++ .map m :: post)))
    (hpre : ∀ e ∈ pre, pyContains e name = .ok false)
    (hfound : dlookup name m = some v) (hv : v.isMapV = false) :
    updateOutputDoc config name enabled settings =
      .ok (dictSet config "outputs" (.seq (pre ++
        .map (dictSet m name (.bool (to_bool enabled))) :: post))) := by
  have hhead : updateOutputsLoop name (to_bool enabled) settings (.map m :: post) =
      .ok (some (.map (dictSet m name (.bool (to_bool enabled))) :: post)) := by
    simp only [updateOutputsLoop, pyContains,
      contains_of_dlookup name m v hfound, outputHit, hfound]
    cases v <;> simp [Yaml.isMapV] at hv ⊢
  rw [updateOutputDoc, hout]
  simp only [Option.isNone_some, Bool.false_eq_true, if_false, hout,
    updateOutputsLoop_append name (to_bool enabled) settings pre _ hpre, hhead]

theorem updateOutputDoc_not_found (config : AList) (name : String) (enabled : Yaml)
    (settings : AList) (outs : List Yaml)
    (hout : dlookup "outputs" config = some (.seq outs))
    (hall : ∀ e ∈ outs, pyContains e name = .ok false) :
    updateOutputDoc config name enabled settings =
      .ok (dictSet config "outputs" (.seq (outs ++ [.map [(name, .map
        (dictUpdate [("enabled", .bool (to_bool enabled))] settings))]]))) := by
  have hloop : updateOutputsLoop name (to_bool enabled) settings outs = .ok none := by
    have h0 : updateOutputsLoop name (to_bool enabled) settings (outs ++ []) =
        match updateOutputsLoop name (to_bool enabled) settings ([] : List Yaml) with
        | .ok none => .ok none
        | .ok (some rest') => .ok (some (outs ++ rest'))
        | .error err => .error err :=
      updateOutputsLoop_append name (to_bool enabled) settings outs [] hall
    simpa [updateOutputsLoop] using h0
  rw [updateOutputDoc, hout]
  simp only [Option.isNone_some, Bool.false_eq_true, if_false, hout, hloop]

theorem updateOutputDoc_absent (config : AList) (name : String) (enabled : Yaml)
    (settings : AList) (hout : dlookup "outputs" config = none) :
    updateOutputDoc config name enabled settings =
      .ok (dictSet config "outputs" (.seq [.map [(name, .map
        (dictUpdate [("enabled", .bool (to_bool enabled))] settings))]])) := by
  rw [updateOutputDoc, hout]
  simp only [Option.isNone_none, if_true, dlookup_dictSet_self, updateOutputsLoop,
    dictSet_dictSet_same, List.nil_append]

/-- Claim C4: update_output is an upsert on the outputs sequence: a first
entry carrying the key with a mapping value keeps its position, gets
enabled set to to_bool(enabled) and the settings merged in; a first entry
carrying the key with a non-mapping value has that value replaced by the
bare boolean; when no entry carries the key (or the outputs key is absent)
a new single-key mapping with enabled and the settings is appended. -/
theorem update_output_upsert (config : AList) (name : String) (enabled : Yaml)
    (settings : AList) :
    (∀ (pre post : List Yaml) (m mv : AList),
      dlookup "outputs" config = some (.seq (pre ++ .map m :: post)) →
      (∀ e ∈ pre, pyContains e name = .ok false) →
      dlookup name m = some (.map mv) →
      updateOutputDoc config name enabled settings =
        .ok (dictSet config "outputs" (.seq (pre ++ .map (dictSet m name (.map
          (dictUpdate (dictSet mv "enabled" (.bool (to_bool enabled))) settings))) :: post)))) ∧
    (∀ (pre post : List Yaml) (m : AList) (v : Yaml),
      dlookup "outputs" config = some (.seq (pre ++ .map m :: post)) →
      (∀ e ∈ pre, pyContains e name = .ok false) →
      dlookup name m = some v → v.isMapV = false →
      updateOutputDoc config name enabled settings =
        .ok (dictSet config "outputs" (.seq (pre ++
          .map (dictSet m name (.bool (to_bool enabled))) :: post)))) ∧
    (∀ outs : List Yaml,
      dlookup "outputs" config = some (.seq outs) →
      (∀ e ∈ outs, pyContains e name = .ok false) →
      updateOutputDoc config name enabled settings =
        .ok (dictSet config "outputs" (.seq (outs ++ [.map [(name, .map
          (dictUpdate [("enabled", .bool (to_bool enabled))] settings))]])))) ∧
    (dlookup "outputs" config = none →
      updateOutputDoc config name enabled settings =
        .ok (dictSet config "outputs" (.seq [.map [(name, .map
          (dictUpdate [("enabled", .bool (to_bool enabled))] settings))]]))) := by
  refine ⟨?_, ?_, ?_, ?_⟩
  · intro pre post m mv hout hpre hfound
    exact updateOutputDoc_found_map config name enabled settings pre post m mv hout hpre hfound
  · intro pre post m v hout hpre hfound hv
    exact updateOutputDoc_found_scalar config name enabled settings pre post m v hout hpre hfound hv
  · intro outs hout hall
    exact updateOutputDoc_not_found config name enabled settings outs hout hall
  · intro hout
    exact updateOutputDoc_absent config name enabled settings hout

/-- Witness for C4: the example of the spec - outputs holds one eve-log
entry with enabled no; update_output("eve-log", True, filetype regular)
flips enabled to yes and merges the new key in place. -/
theorem update_output_upsert_witness :
    updateOutputDoc [("outputs", Yaml.seq [Yaml.map [("eve-log",
        Yaml.map [("enabled", Yaml.bool false)])]])]
      "eve-log" (Yaml.bool true) [("filetype", Yaml.str "regular")] =
      .ok [("outputs", Yaml.seq [Yaml.map [("eve-log",
        Yaml.map [("enabled", Yaml.bool true), ("filetype", Yaml.str "regular")])]])] := by
  have h := (update_output_upsert [("outputs", Yaml.seq [Yaml.map [("eve-log",
      Yaml.map [("enabled", Yaml.bool false)])]])]
    "eve-log" (Yaml.bool true) [("filetype", Yaml.str "regular")]).1
    [] [] [("eve-log", Yaml.map [("enabled", Yaml.bool false)])] [("enabled", Yaml.bool false)]
    rfl (by intro e he; simp at he) rfl
  rw [h]
  rfl

/-- Claim C10: when the entry found for the output name holds a non-mapping
value, update_output replaces that value with the bare boolean
to_bool(enabled) and ignores the settings argument entirely: the saved
entry is the single-key mapping with the boolean, independent of which
settings mapping was passed. -/
theorem update_output_scalar_ignores_settings (config : AList) (name : String)
    (enabled : Yaml) (settings : AList) (pre post : List Yaml) (v : Yaml)
    (hout : dlookup "outputs" config = some (.seq (pre ++ .map [(name, v)] :: post)))
    (hpre : ∀ e ∈ pre, pyContains e name = .ok false)
    (hv : v.isMapV = false) :
    updateOutputDoc config name enabled settings =
      .ok (dictSet config "outputs"
        (.seq (pre ++ .map [(name, .bool (to_bool enabled))] :: post))) ∧
    ∀ settings' : AList, updateOutputDoc config name enabled settings =
      updateOutputDoc config name enabled settings' := by
  have hbase : ∀ s : AList, updateOutputDoc config name enabled s =
      .ok (dictSet config "outputs"
        (.seq (pre ++ .map [(name, .bool (to_bool enabled))] :: post))) := by
    intro s
    have h := updateOutputDoc_found_scalar config name enabled s pre post
      [(name, v)] v hout hpre (by simp) hv
    simpa using h
  exact ⟨hbase settings, fun s' => (hbase settings).trans (hbase s').symm⟩

/-- Witness for C10: an eve-log entry holding the scalar yes is replaced by
the bare boolean and the filetype setting is dropped. -/
theorem update_output_scalar_ignores_settings_witness :
    (updateOutputDoc [("outputs", Yaml.seq [Yaml.map [("eve-log", Yaml.str "yes")]])]
        "eve-log" (Yaml.bool true) [("filetype", Yaml.str "regular")] =
      .ok [("outputs", Yaml.seq [Yaml.map [("eve-log", Yaml.bool true)]])]) ∧
    (updateOutputDoc [("outputs", Yaml.seq [Yaml.map [("eve-log", Yaml.str "yes")]])]
        "eve-log" (Yaml.bool true) [("filetype", Yaml.str "regular")] =
      updateOutputDoc [("outputs", Yaml.seq [Yaml.map [("eve-log", Yaml.str "yes")]])]
        "eve-log" (Yaml.bool true) []) := by
  have h := update_output_scalar_ignores_settings
    [("outputs", Yaml.seq [Yaml.map [("eve-log", Yaml.str "yes")]])]
    "eve-log" (Yaml.bool true) [("filetype", Yaml.str "regular")]
    [] [] (Yaml.str "yes") rfl (by intro e he; simp at he) rfl
  refine ⟨?_, h.2 []⟩
  rw [h.1]
  rfl

/-! ## Claim C8 -/

/-- Claim C8: update_protocol is idempotent on the document: applying the
same protocol update twice (each call loading the document the previous
call left on disk, a failed call leaving it untouched) produces the same
final document as applying it once. -/
theorem update_protocol_idempotent (config : AList) (p : String) (e : Yaml)
    (s : AList) :
    applyProtocolUpdate p e s (applyProtocolUpdate p e s config) =
      applyProtocolUpdate p e s config := by
  unfold applyProtocolUpdate
  cases hal : getD config "app-layer" (.map []) with
  | map al =>
    cases hps : getD al "protocols" (.map []) with
    | map ps =>
      cases hpc : getD ps p (.map []) with
      | map pc =>
        simp only [updateProtocolDoc, hal, hps, hpc]
        simp only [getD, dlookup_dictSet_self, Option.getD_some, dictUpdate_idem,
          dictSet_dictSet_same]
      | null => simp only [updateProtocolDoc, hal, hps, hpc]
      | bool b => simp only [updateProtocolDoc, hal, hps, hpc]
      | int n => simp only [updateProtocolDoc, hal, hps, hpc]
      | str s' => simp only [updateProtocolDoc, hal, hps, hpc]
      | seq xs => simp only [updateProtocolDoc, hal, hps, hpc]
    | null => simp only [updateProtocolDoc, hal, hps]
    | bool b => simp only [updateProtocolDoc, hal, hps]
    | int n => simp only [updateProtocolDoc, hal, hps]
    | str s' => simp only [updateProtocolDoc, hal, hps]
    | seq xs => simp only [updateProtocolDoc, hal, hps]
  | null => simp only [updateProtocolDoc, hal]
  | bool b => simp only [updateProtocolDoc, hal]
  | int n => simp only [updateProtocolDoc, hal]
  | str s' => simp only [updateProtocolDoc, hal]
  | seq xs => simp only [updateProtocolDoc, hal]

/-! ## Claim C7 -/

theorem writeBackend_of_empty (c : AList) (key : String) (g : List AList)
    (n : AList → Yaml) (hg : g.isEmpty = true) : writeBackend c key g n = c := by
  unfold writeBackend
  rw [hg]
  rfl

theorem dlookup_writeBackend_ne (c : AList) (key : String) (g : List AList)
    (n : AList → Yaml) (k : String) (hk : k ≠ key) :
    dlookup k (writeBackend c key g n) = dlookup k c := by
  unfold writeBackend
  split
  · rfl
  · exact dlookup_dictSet_ne key k _ c hk

theorem dlookup_writeBackend_self (c : AList) (key : String) (g : List AList)
    (n : AList → Yaml) (hg : g.isEmpty = false) :
    dlookup key (writeBackend c key g n) =
      some (.seq ((g.filter ifaceEnabled).map n)) := by
  unfold writeBackend
  rw [hg]
  simp only [Bool.false_eq_true, if_false]
  exact dlookup_dictSet_self key _ c

theorem writeDpdk_of_empty (c : AList) (g : List AList) (hg : g.isEmpty = true) :
    writeDpdk c g = .ok c := by
  unfold writeDpdk
  rw [hg]
  rfl

theorem writeDpdk_ok_lookup_other (c : AList) (g : List AList) (out : AList)
    (h : writeDpdk c g = .ok out) (k : String) (hk : k ≠ "dpdk") :
    dlookup k out = dlookup k c := by
  unfold writeDpdk at h
  split at h
  · cases h
    rfl
  · cases hdl : dlookup "dpdk" c with
    | none =>
      rw [hdl] at h
      simp only [Option.isNone_none, if_true, dlookup_dictSet_self] at h
      cases h
      rw [dlookup_dictSet_ne "dpdk" k _ _ hk, dlookup_dictSet_ne "dpdk" k _ _ hk]
    | some v =>
      rw [hdl] at h
      simp only [Option.isNone_some, Bool.false_eq_true, if_false, hdl] at h
      cases v with
      | map dm =>
        cases h
        rw [dlookup_dictSet_ne "dpdk" k _ _ hk]
      | null => cases h
      | bool b => cases h
      | int n => cases h
      | str s => cases h
      | seq xs => cases h

theorem writeDpdk_ok_lookup_dpdk (c : AList) (g : List AList) (out : AList)
    (h : writeDpdk c g = .ok out) (hg : g.isEmpty = false) :
    ∃ dm : AList,
      dlookup "dpdk" out = some (.map (dictSet dm "interfaces"
        (.seq ((g.filter ifaceEnabled).map normThreads)))) ∧
      (dlookup "dpdk" c = some (.map dm) ∨ (dlookup "dpdk" c = none ∧ dm = [])) := by
  unfold writeDpdk at h
  rw [hg] at h
  simp only [Bool.false_eq_true, if_false] at h
  cases hdl : dlookup "dpdk" c with
  | none =>
    rw [hdl] at h
    simp only [Option.isNone_none, if_true, dlookup_dictSet_self] at h
    cases h
    exact ⟨[], by rw [dlookup_dictSet_self], Or.inr ⟨rfl, rfl⟩⟩
  | some v =>
    rw [hdl] at h
    simp only [Option.isNone_some, Bool.false_eq_true, if_false, hdl] at h
    cases v with
    | map dm =>
      cases h
      exact ⟨dm, by rw [dlookup_dictSet_self], Or.inl rfl⟩
    | null => cases h
    | bool b => cases h
    | int n => cases h
    | str s => cases h
    | seq xs => cases h

/-- Claim C7: update_interfaces groups the input by its type field,
discards every descriptor whose enabled flag is falsy, and rewrites each
represented back-end subtree wholesale (a back-end with no input
descriptors is untouched); in particular a disabled interface is absent
from the saved sequence rather than marked disabled. -/
theorem update_interfaces_disable_removes (config : AList) (ifaces : List AList)
    (out : AList) (h : updateInterfacesDoc config ifaces = .ok out) :
    ((ifaces.filter (fun m => typeIs m "af-packet")).isEmpty = false →
      dlookup "af-packet" out = some (.seq
        (((ifaces.filter (fun m => typeIs m "af-packet")).filter ifaceEnabled).map
          normAfPacket))) ∧
    ((ifaces.filter (fun m => typeIs m "af-packet")).isEmpty = true →
      dlookup "af-packet" out = dlookup "af-packet" config) ∧
    ((ifaces.filter (fun m => typeIs m "af-xdp")).isEmpty = false →
      dlookup "af-xdp" out = some (.seq
        (((ifaces.filter (fun m => typeIs m "af-xdp")).filter ifaceEnabled).map
          normThreads))) ∧
    ((ifaces.filter (fun m => typeIs m "af-xdp")).isEmpty = true →
      dlookup "af-xdp" out = dlookup "af-xdp" config) ∧
    ((ifaces.filter (fun m => typeIs m "pcap")).isEmpty = false →
      dlookup "pcap" out = some (.seq
        (((ifaces.filter (fun m => typeIs m "pcap")).filter ifaceEnabled).map
          normPcap))) ∧
    ((ifaces.filter (fun m => typeIs m "pcap")).isEmpty = true →
      dlookup "pcap" out = dlookup "pcap" config) ∧
    ((ifaces.filter (fun m => typeIs m "dpdk")).isEmpty = false →
      ∃ dm : AList,
        dlookup "dpdk" out = some (.map (dictSet dm "interfaces"
          (.seq (((ifaces.filter (fun m => typeIs m "dpdk")).filter ifaceEnabled).map
            normThreads)))) ∧
        (dlookup "dpdk" config = some (.map dm) ∨
          (dlookup "dpdk" config = none ∧ dm = []))) ∧
    ((ifaces.filter (fun m => typeIs m "dpdk")).isEmpty = true →
      dlookup "dpdk" out = dlookup "dpdk" config) := by
  unfold updateInterfacesDoc at h
  cases hw : writeDpdk
      (writeBackend
        (writeBackend config "af-packet"
          (ifaces.filter (fun m => typeIs m "af-packet")) normAfPacket)
        "af-xdp" (ifaces.filter (fun m => typeIs m "af-xdp")) normThreads)
      (ifaces.filter (fun m => typeIs m "dpdk")) with
  | error e =>
    rw [hw] at h
    cases h
  | ok c3 =>
    rw [hw] at h
    cases h
    have haf_ne : ("af-packet" : String) ≠ "pcap" := by decide
    have hxdp_ne : ("af-xdp" : String) ≠ "pcap" := by decide
    have hdpdk_ne : ("dpdk" : String) ≠ "pcap" := by decide
    have haf_xdp : ("af-packet" : String) ≠ "af-xdp" := by decide
    have haf_dpdk : ("af-packet" : String) ≠ "dpdk" := by decide
    have hxdp_dpdk : ("af-xdp" : String) ≠ "dpdk" := by decide
    have hdpdk_xdp : ("dpdk" : String) ≠ "af-xdp" := by decide
    have hdpdk_af : ("dpdk" : String) ≠ "af-packet" := by decide
    have hxdp_af : ("af-xdp" : String) ≠ "af-packet" := by decide
    refine ⟨?_, ?_, ?_, ?_, ?_, ?_, ?_, ?_⟩
    · intro hne
      rw [dlookup_writeBackend_ne _ _ _ _ _ haf_ne,
        writeDpdk_ok_lookup_other _ _ _ hw _ haf_dpdk,
        dlookup_writeBackend_ne _ _ _ _ _ haf_xdp,
        dlookup_writeBackend_self _ _ _ _ hne]
    · intro hemp
      rw [dlookup_writeBackend_ne _ _ _ _ _ haf_ne,
        writeDpdk_ok_lookup_other _ _ _ hw _ haf_dpdk,
        dlookup_writeBackend_ne _ _ _ _ _ haf_xdp,
        writeBackend_of_empty _ _ _ _ hemp]
    · intro hne
      rw [dlookup_writeBackend_ne _ _ _ _ _ hxdp_ne,
        writeDpdk_ok_lookup_other _ _ _ hw _ hxdp_dpdk,
        dlookup_writeBackend_self _ _ _ _ hne]
    · intro hemp
      rw [dlookup_writeBackend_ne _ _ _ _ _ hxdp_ne,
        writeDpdk_ok_lookup_other _ _ _ hw _ hxdp_dpdk,
        writeBackend_of_empty _ _ _ _ hemp,
        dlookup_writeBackend_ne _ _ _ _ _ hxdp_af]
    · intro hne
      rw [dlookup_writeBackend_self _ _ _ _ hne]
    · intro hemp
      rw [writeBackend_of_empty _ _ _ _ hemp,
        writeDpdk_ok_lookup_other _ _ _ hw _ (by decide),
        dlookup_writeBackend_ne _ _ _ _ _ (by decide),
        dlookup_writeBackend_ne _ _ _ _ _ (by decide)]
    · intro hne
      obtain ⟨dm, hdm, hsrc⟩ := writeDpdk_ok_lookup_dpdk _ _ _ hw hne
      refine ⟨dm, ?_, ?_⟩
      · rw [dlookup_writeBackend_ne _ _ _ _ _ hdpdk_ne, hdm]
      · rwa [dlookup_writeBackend_ne _ _ _ _ _ hdpdk_xdp,
          dlookup_writeBackend_ne _ _ _ _ _ hdpdk_af] at hsrc
    · intro hemp
      rw [dlookup_writeBackend_ne _ _ _ _ _ hdpdk_ne]
      have hd := writeDpdk_of_empty (writeBackend
        (writeBackend config "af-packet"
          (ifaces.filter (fun m => typeIs m "af-packet")) normAfPacket)
        "af-xdp" (ifaces.filter (fun m => typeIs m "af-xdp")) normThreads)
        (ifaces.filter (fun m => typeIs m "dpdk")) hemp
      rw [hd] at hw
      cases hw
      rw [dlookup_writeBackend_ne _ _ _ _ _ hdpdk_xdp,
        dlookup_writeBackend_ne _ _ _ _ _ hdpdk_af]

/-- Witness for C7: two af-packet descriptors, one disabled - only the
enabled one survives in the saved af-packet sequence. -/
theorem update_interfaces_disable_removes_witness :
    dlookup "af-packet"
      [("af-packet", Yaml.seq [Yaml.map [("interface", Yaml.str "eth0"),
        ("threads", Yaml.str "auto"), ("cluster-id", Yaml.int 99),
        ("cluster-type", Yaml.str "cluster_flow")]])] =
      some (Yaml.seq [Yaml.map [("interface", Yaml.str "eth0"),
        ("threads", Yaml.str "auto"), ("cluster-id", Yaml.int 99),
        ("cluster-type", Yaml.str "cluster_flow")]]) := by
  have h := (update_interfaces_disable_removes []
    [[("type", Yaml.str "af-packet"), ("interface", Yaml.str "eth0"),
      ("enabled", Yaml.bool true)],
     [("type", Yaml.str "af-packet"), ("interface", Yaml.str "eth1"),
      ("enabled", Yaml.bool false)]]
    [("af-packet", Yaml.seq [Yaml.map [("interface", Yaml.str "eth0"),
      ("threads", Yaml.str "auto"), ("cluster-id", Yaml.int 99),
      ("cluster-type", Yaml.str "cluster_flow")]])]
    rfl).1 rfl
  exact h

/-! ## Claim C5 -/

theorem asDictE_error (y : Yaml) (e : Err) (h : asDictE y = .error e) :
    e = Err.attributeError := by
  cases y with
  | map m => simp [asDictE] at h
  | null => simp [asDictE] at h; exact h.symm
  | bool b => simp [asDictE] at h; exact h.symm
  | int n => simp [asDictE] at h; exact h.symm
  | str s => simp [asDictE] at h; exact h.symm
  | seq xs => simp [asDictE] at h; exact h.symm

theorem swallow_of_error (r : Except Err Bool) (e : Err) (h : r = .error e) :
    swallow r = false := by
  rw [h]
  rfl

theorem isCNF_load_asDict_pure {α : Type} (fs : Option Yaml) (f : AList → α) :
    isCNF (do
      let y ← loadE fs
      let c ← asDictE y
      pure (f c) : Except Err α) = fs.isNone := by
  cases fs with
  | none => rfl
  | some y =>
    simp only [loadE, Option.isNone_some]
    cases hd : asDictE (if pyTruthy y then y else .map []) with
    | ok m => simp [bind, Except.bind, hd, isCNF, pure, Except.pure]
    | error e =>
      have he := asDictE_error _ _ hd
      subst he
      simp [bind, Except.bind, hd, isCNF]

theorem isCNF_getProtocolsM (fs : Option Yaml) :
    isCNF (getProtocolsM fs) = fs.isNone := by
  cases fs with
  | none => rfl
  | some y =>
    simp only [getProtocolsM, loadE, Option.isNone_some]
    cases hd : asDictE (if pyTruthy y then y else .map []) with
    | ok m =>
      simp only [bind, Except.bind, hd]
      cases hg : getD m "app-layer" (.map []) <;> simp [getProtocolsDoc, hg, isCNF]
    | error e =>
      have he := asDictE_error _ _ hd
      subst he
      simp [bind, Except.bind, hd, isCNF]

/-- Claim C5: the failure contract of the config layer.
First group: every mutation method returns False instead of propagating an
internal exception (a raising body yields the return value False).
Second group: a missing config file makes every mutation method return
False (the FileNotFoundError of load is swallowed too).
Third: ConfigFile.save returns its outcome boolean and never raises.
Fourth group: every read method raises the config-not-found error exactly
when the file is missing.
Fifth group: every read method returns its structurally-valid default when
only the section keys are absent ({ } or [] as the shape of the section
dictates; get_stream additionally forces the empty reassembly mapping into
its default). -/
theorem error_handling_contract :
    ((∀ fs so p e s er, updateProtocolM fs so p e s = .error er →
        updateProtocolMethod fs so p e s = false) ∧
     (∀ fs so s er, updateStreamM fs so s = .error er →
        updateStreamMethod fs so s = false) ∧
     (∀ fs so s er, updateDetectionM fs so s = .error er →
        updateDetectionMethod fs so s = false) ∧
     (∀ fs so vs er, updateVarsM fs so vs = .error er →
        updateVarsMethod fs so vs = false) ∧
     (∀ fs so n v er, updateVarM fs so n v = .error er →
        updateVarMethod fs so n v = false) ∧
     (∀ fs so n e s er, updateOutputM fs so n e s = .error er →
        updateOutputMethod fs so n e s = false) ∧
     (∀ fs so s er, updateLoggingM fs so s = .error er →
        updateLoggingMethod fs so s = false) ∧
     (∀ fs so s er, updateHostM fs so s = .error er →
        updateHostMethod fs so s = false) ∧
     (∀ fs so ct s er, updatePacketCaptureM fs so ct s = .error er →
        updatePacketCaptureMethod fs so ct s = false) ∧
     (∀ fs so ifaces er, updateInterfacesM fs so ifaces = .error er →
        updateInterfacesMethod fs so ifaces = false) ∧
     (∀ fs so s er, updateIpsM fs so s = .error er →
        updateIpsMethod fs so s = false)) ∧
    ((∀ so p e s, updateProtocolMethod none so p e s = false) ∧
     (∀ so s, updateStreamMethod none so s = false) ∧
     (∀ so s, updateDetectionMethod none so s = false) ∧
     (∀ so vs, updateVarsMethod none so vs = false) ∧
     (∀ so n v, updateVarMethod none so n v = false) ∧
     (∀ so n e s, updateOutputMethod none so n e s = false) ∧
     (∀ so s, updateLoggingMethod none so s = false) ∧
     (∀ so s, updateHostMethod none so s = false) ∧
     (∀ so ct s, updatePacketCaptureMethod none so ct s = false) ∧
     (∀ so ifaces, updateInterfacesMethod none so ifaces = false) ∧
     (∀ so s, updateIpsMethod none so s = false)) ∧
    (∀ (so : Bool) (d : AList), saveM so d = .ok so) ∧
    ((∀ fs, isCNF (getProtocolsM fs) = fs.isNone) ∧
     (∀ fs, isCNF (getStreamM fs) = fs.isNone) ∧
     (∀ fs, isCNF (getDetectionM fs) = fs.isNone) ∧
     (∀ fs, isCNF (getVarsM fs) = fs.isNone) ∧
     (∀ fs, isCNF (getOutputsM fs) = fs.isNone) ∧
     (∀ fs, isCNF (getLoggingM fs) = fs.isNone) ∧
     (∀ fs, isCNF (getHostM fs) = fs.isNone) ∧
     (∀ fs ct, isCNF (getPacketCaptureM fs ct) = fs.isNone) ∧
     (∀ fs, isCNF (getInterfacesM fs) = fs.isNone) ∧
     (∀ fs, isCNF (getIpsM fs) = fs.isNone)) ∧
    ((∀ c : AList, dlookup "app-layer" c = none → getProtocolsDoc c = .ok (.map [])) ∧
     (∀ (c : AList) ct, dlookup ct c = none → getPacketCaptureDoc c ct = .map []) ∧
     (∀ c : AList, dlookup "stream" c = none →
        getStreamDoc c = [("reassembly", .map [])]) ∧
     (∀ c : AList, dlookup "detect" c = none → dlookup "threading" c = none →
        dlookup "profiling" c = none → dlookup "mpm-algo" c = none →
        dlookup "sgh-mpm-context" c = none → getDetectionDoc c = []) ∧
     (∀ c : AList, dlookup "vars" c = none → getVarsDoc c = .map []) ∧
     (∀ c : AList, dlookup "outputs" c = none → getOutputsDoc c = []) ∧
     (∀ c : AList, dlookup "logging" c = none → getLoggingDoc c = .map []) ∧
     (∀ c : AList, dlookup "host" c = none → getHostDoc c = .map []) ∧
     (∀ c : AList, dlookup "af-packet" c = none → dlookup "af-xdp" c = none →
        dlookup "dpdk" c = none → dlookup "pcap" c = none →
        captureGetInterfacesDoc c = []) ∧
     (∀ c : AList, dlookup "action-order" c = none →
        dlookup "default-rule-action" c = none → dlookup "nfq" c = none →
        dlookup "netmap" c = none → dlookup "af-packet" c = none →
        getIpsDoc c = [])) := by
  refine ⟨⟨?_, ?_, ?_, ?_, ?_, ?_, ?_, ?_, ?_, ?_, ?_⟩,
    ⟨?_, ?_, ?_, ?_, ?_, ?_, ?_, ?_, ?_, ?_, ?_⟩, ?_,
    ⟨?_, ?_, ?_, ?_, ?_, ?_, ?_, ?_, ?_, ?_⟩,
    ⟨?_, ?_, ?_, ?_, ?_, ?_, ?_, ?_, ?_, ?_⟩⟩
  · intro fs so p e s er h; exact swallow_of_error _ er h
  · intro fs so s er h; exact swallow_of_error _ er h
  · intro fs so s er h; exact swallow_of_error _ er h
  · intro fs so vs er h; exact swallow_of_error _ er h
  · intro fs so n v er h; exact swallow_of_error _ er h
  · intro fs so n e s er h; exact swallow_of_error _ er h
  · intro fs so s er h; exact swallow_of_error _ er h
  · intro fs so s er h; exact swallow_of_error _ er h
  · intro fs so ct s er h; exact swallow_of_error _ er h
  · intro fs so ifaces er h; exact swallow_of_error _ er h
  · intro fs so s er h; exact swallow_of_error _ er h
  · intro so p e s; rfl
  · intro so s; rfl
  · intro so s; rfl
  · intro so vs; rfl
  · intro so n v; rfl
  · intro so n e s; rfl
  · intro so s; rfl
  · intro so s; rfl
  · intro so ct s; rfl
  · intro so ifaces; rfl
  · intro so s; rfl
  · intro so d; rfl
  · exact isCNF_getProtocolsM
  · intro fs; exact isCNF_load_asDict_pure fs getStreamDoc
  · intro fs; exact isCNF_load_asDict_pure fs getDetectionDoc
  · intro fs; exact isCNF_load_asDict_pure fs getVarsDoc
  · intro fs; exact isCNF_load_asDict_pure fs getOutputsDoc
  · intro fs; exact isCNF_load_asDict_pure fs getLoggingDoc
  · intro fs; exact isCNF_load_asDict_pure fs getHostDoc
  · intro fs ct; exact isCNF_load_asDict_pure fs (fun c => getPacketCaptureDoc c ct)
  · intro fs; exact isCNF_load_asDict_pure fs captureGetInterfacesDoc
  · intro fs; exact isCNF_load_asDict_pure fs getIpsDoc
  · intro c h; simp [getProtocolsDoc, getD, h]
  · intro c ct h; simp [getPacketCaptureDoc, h]
  · intro c h; simp [getStreamDoc, getD, h]
  · intro c h1 h2 h3 h4 h5; simp [getDetectionDoc, h1, h2, h3, h4, h5]
  · intro c h; simp [getVarsDoc, getD, h]
  · intro c h; simp [getOutputsDoc, h]
  · intro c h; simp [getLoggingDoc, getD, h]
  · intro c h; simp [getHostDoc, getD, h]
  · intro c h1 h2 h3 h4; simp [captureGetInterfacesDoc, h1, h2, h3, h4]
  · intro c h1 h2 h3 h4 h5; simp [getIpsDoc, h1, h2, h3, h4, h5]

/-- Witness for C5: a mutation whose body raises (non-mapping top-level
document) returns False through the wrapper, and a read on a document
without the section key returns the default. -/
theorem error_handling_contract_witness :
    updateProtocolMethod (some (Yaml.str "x")) true "http" (Yaml.bool true) [] = false ∧
    getProtocolsDoc [] = .ok (Yaml.map []) := by
  have h := error_handling_contract
  exact ⟨h.1.1 (some (Yaml.str "x")) true "http" (Yaml.bool true) [] Err.attributeError rfl,
    h.2.2.2.2.1 [] rfl⟩

end SuricataConfig
